import Mathlib

/-!
Verification development for the order-aggregation ETL pipeline
(src/ubiqua-integration-test.py).

The script reads order rows from a relational store, joins each with its
client row and its (order-item, product) row pairs, computes derived
fields (subtotal, taxes, total, is_promotion_day, most_popular_brand),
and bulk-inserts the resulting documents into a document collection,
absorbing duplicate-key conflicts.

Numeric values that the script handles as Python floats (unit prices,
tax rates, coordinates) are embedded as exact rationals; quantities are
embedded as naturals. Python datetimes are embedded by their Gregorian
(year, month, day) triple, with the weekday derived exactly as CPython
derives it (proleptic Gregorian ordinal, ordinal 1 = Monday, Jan 1 of
year 1).
-/

namespace Ubiqua

/-- A row of the `clients` table. The script reads `uid`, `name`,
`address` and `promotion_day`; `latitude`/`longitude` model the client
location columns that the spec describes as part of the client row
(the script itself never reads them). -/
structure ClientRow where
  uid : String
  name : String
  address : String
  promotion_day : String
  latitude : ℚ
  longitude : ℚ
  deriving DecidableEq, Repr

/-- A row of the `products` table, with the fields the script reads. -/
structure ProductRow where
  uid : String
  name : String
  brand : String
  unit_price : ℚ
  tax_rate : ℚ
  deriving DecidableEq, Repr

/-- A row of the `order_items` table, with the fields the script reads. -/
structure OrderItemRow where
  order_uid : String
  product_uid : String
  quantity : ℕ
  deriving DecidableEq, Repr

/-- A calendar date, standing for the date part of the Python
`datetime` stored in the `date_of_order` column. -/
structure Date where
  year : ℕ
  month : ℕ
  day : ℕ
  deriving DecidableEq, Repr

/-- A row of the `orders` table, with the fields the script reads. -/
structure OrderRow where
  uid : String
  client_uid : String
  date_of_order : Date
  latitude : ℚ
  longitude : ℚ
  status : String
  deriving DecidableEq, Repr

/-- The `OrderItem` dataclass of the script. -/
structure OrderItem where
  uid : String
  quantity : ℕ
  price : ℚ
  name : String
  brand : String
  deriving DecidableEq, Repr

/-- The `Order` dataclass of the script. -/
structure Order where
  uid : String
  date_of_order : Date
  client_uid : String
  client_name : String
  client_address : String
  latitude : ℚ
  longitude : ℚ
  status : String
  subtotal : ℚ
  taxes : ℚ
  total : ℚ
  is_promotion_day : Bool
  most_popular_brand : String
  order_items : List OrderItem
  deriving DecidableEq, Repr

/-! Date / weekday helper, embedding CPython datetime weekday
resolution followed by `strftime("%a").upper()` under the en_US
locale (the only locale `weekday_short_name` is called with). -/

/-- Gregorian leap-year test, as in CPython `datetime._is_leap`. -/
def isLeap (y : ℕ) : Bool :=
  y % 4 == 0 && (y % 100 != 0 || y % 400 == 0)

/-- Days in the years before `year`, as in CPython
`datetime._days_before_year`. -/
def daysBeforeYear (year : ℕ) : ℕ :=
  let y := year - 1
  y * 365 + y / 4 - y / 100 + y / 400

/-- Days in the months of a common year before month `m` (1-based),
as in CPython `datetime._DAYS_BEFORE_MONTH`. -/
def daysBeforeMonth (m : ℕ) : ℕ :=
  [0, 0, 31, 59, 90, 120, 151, 181, 212, 243, 273, 304, 334].getD m 0

/-- Proleptic Gregorian ordinal of a date, as in CPython
`datetime.date.toordinal` (ordinal 1 is Jan 1 of year 1). -/
def toordinal (d : Date) : ℕ :=
  daysBeforeYear d.year + daysBeforeMonth d.month +
    (if d.month > 2 && isLeap d.year then 1 else 0) + d.day

/-- Python `date.weekday()`: Monday is 0 and Sunday is 6. -/
def pyWeekday (d : Date) : ℕ :=
  (toordinal d + 6) % 7

/-- The en_US `%a` abbreviation for a Python weekday number. -/
def weekdayAbbrevEnUS (w : ℕ) : String :=
  ["Mon", "Tue", "Wed", "Thu", "Fri", "Sat", "Sun"].getD w ""

/-- Python `str.upper()` for ASCII strings, mapping each character
through the uppercase table. -/
def pyUpper (s : String) : String :=
  String.mk (s.data.map Char.toUpper)

/-- The script function `weekday_short_name(date)` at its default
locale argument: `date.strftime("%a").upper()` under en_US.UTF-8. -/
def weekday_short_name (d : Date) : String :=
  pyUpper (weekdayAbbrevEnUS (pyWeekday d))

/-! The aggregation transform (the per-order block of the script
main loop, lines 77-125). -/

/-- The relational source visible to the script: one list per table,
in the row order each query returns. -/
structure Database where
  orders : List OrderRow
  clients : List ClientRow
  order_items : List OrderItemRow
  products : List ProductRow
  deriving Repr

/-- The ways a run of the aggregation can abort with a Python
exception. -/
inductive AggError where
  /-- `client` is `None` and `client["promotion_day"]` raises. -/
  | missingClient (client_uid : String)
  /-- `product` is `None` and `product["unit_price"]` raises. -/
  | missingProduct (product_uid : String)
  /-- `max(order_items, ...)` raises `ValueError` on an empty list. -/
  | emptyItemsMax
  deriving DecidableEq, Repr

/-- The `OrderItem` the loop body appends for one
(order-item row, product row) pair. -/
def mkOrderItem (q : OrderItemRow × ProductRow) : OrderItem :=
  { uid := q.2.uid
    quantity := q.1.quantity
    price := q.2.unit_price
    name := q.2.name
    brand := q.2.brand }

/-- The inner `for order_detail in order_details` loop: threads the
running `order_subtotal_without_tax`, `order_tax_amount`,
`order_total` and the accumulated `order_items` list, looking each
product up by uid; a missing product aborts. -/
def itemsLoop (products : List ProductRow) :
    List OrderItemRow → ℚ → ℚ → ℚ → List OrderItem →
    Except AggError (ℚ × ℚ × ℚ × List OrderItem)
  | [], st, tx, tot, acc => .ok (st, tx, tot, acc)
  | d :: rest, st, _tx, _tot, acc =>
    match products.find? (fun p => p.uid = d.product_uid) with
    | none => .error (.missingProduct d.product_uid)
    | some p =>
      let st' := st + (d.quantity : ℚ) * p.unit_price
      let tx' := st' * p.tax_rate
      let tot' := st' + tx'
      itemsLoop products rest st' tx' tot' (acc ++ [mkOrderItem (d, p)])

/-- Python `max(l, key)` for a non-empty list: keeps the current
maximum and replaces it only on a strictly larger key, so the first
occurrence of the maximal key wins. -/
def pyMaxBy (key : α → ℕ) : List α → Option α
  | [] => none
  | x :: xs => some (xs.foldl (fun best y => if key best < key y then y else best) x)

/-- The per-order body of the script main loop: fetch the client row
and the order-item rows, run the item loop, compute
`is_promotion_day` and `most_popular_brand`, and build the `Order`
record. Failures surface in the order the Python statements raise:
a missing product raises inside the loop (line 91), a missing client
raises at `client["promotion_day"]` (line 105), and the empty
`max(...)` raises at line 106. -/
def aggregateOrder (db : Database) (order : OrderRow) : Except AggError Order :=
  let client? := db.clients.find? (fun c => c.uid = order.client_uid)
  let details := db.order_items.filter (fun d => d.order_uid = order.uid)
  match itemsLoop db.products details 0 0 0 [] with
  | .error e => .error e
  | .ok (st, tx, tot, items) =>
    match client? with
    | none => .error (.missingClient order.client_uid)
    | some client =>
      let ipd := weekday_short_name order.date_of_order == client.promotion_day
      match pyMaxBy (fun oi => oi.quantity) items with
      | none => .error .emptyItemsMax
      | some best =>
        .ok
          { uid := order.uid
            date_of_order := order.date_of_order
            client_uid := client.uid
            client_name := client.name
            client_address := client.address
            latitude := order.latitude
            longitude := order.longitude
            status := order.status
            subtotal := st
            taxes := tx
            total := tot
            is_promotion_day := ipd
            most_popular_brand := best.brand
            order_items := items }

/-- The outer `for order in order_query` loop, appending one `Order`
per order row; the first Python exception aborts the whole run. -/
def runAggregationAux (db : Database) :
    List OrderRow → List Order → Except AggError (List Order)
  | [], acc => .ok acc
  | o :: rest, acc =>
    match aggregateOrder db o with
    | .error e => .error e
    | .ok rec => runAggregationAux db rest (acc ++ [rec])

/-- The whole reading/aggregation phase: the `orders` list the script
holds when the cursor loop ends. -/
def runAggregation (db : Database) : Except AggError (List Order) :=
  runAggregationAux db db.orders []

/-! Characterization of the item loop through the resolved
(order-item row, product row) pairs. -/

/-- The (order-item row, product row) pairs the loop visits, in query
order; `none` when some item references a missing product. -/
def resolvePairs (products : List ProductRow) :
    List OrderItemRow → Option (List (OrderItemRow × ProductRow))
  | [] => some []
  | d :: rest =>
    match products.find? (fun p => p.uid = d.product_uid) with
    | none => none
    | some p => (resolvePairs products rest).map (fun ps => (d, p) :: ps)

/-- Sum of quantity times unit price over a pair list. -/
def pairSum (pairs : List (OrderItemRow × ProductRow)) : ℚ :=
  (pairs.map (fun q => (q.1.quantity : ℚ) * q.2.unit_price)).sum

theorem resolvePairs_fst (products : List ProductRow) :
    ∀ (details : List OrderItemRow) (pairs : List (OrderItemRow × ProductRow)),
      resolvePairs products details = some pairs → pairs.map Prod.fst = details := by
  intro details
  induction details with
  | nil => intro pairs h; simp only [resolvePairs, Option.some.injEq] at h; simp [← h]
  | cons d rest ih =>
    intro pairs h
    simp only [resolvePairs] at h
    cases hf : products.find? (fun p => p.uid = d.product_uid) with
    | none => rw [hf] at h; exact absurd h (by simp)
    | some p =>
      rw [hf] at h
      cases hr : resolvePairs products rest with
      | none => rw [hr] at h; exact absurd h (by simp)
      | some ps =>
        rw [hr] at h
        replace h : (d, p) :: ps = pairs := by simpa using h
        subst h
        simp [ih ps hr]

theorem resolvePairs_product_uid (products : List ProductRow) :
    ∀ (details : List OrderItemRow) (pairs : List (OrderItemRow × ProductRow)),
      resolvePairs products details = some pairs →
      ∀ q ∈ pairs, q.2.uid = q.1.product_uid := by
  intro details
  induction details with
  | nil =>
    intro pairs h
    simp only [resolvePairs, Option.some.injEq] at h
    subst h
    simp
  | cons d rest ih =>
    intro pairs h
    simp only [resolvePairs] at h
    cases hf : products.find? (fun p => p.uid = d.product_uid) with
    | none => rw [hf] at h; exact absurd h (by simp)
    | some p =>
      rw [hf] at h
      cases hr : resolvePairs products rest with
      | none => rw [hr] at h; exact absurd h (by simp)
      | some ps =>
        rw [hr] at h
        replace h : (d, p) :: ps = pairs := by simpa using h
        subst h
        intro q hq
        rcases List.mem_cons.mp hq with hq | hq
        · subst hq
          have := List.find?_some hf
          simpa using this
        · exact ih ps hr q hq

/-- A missing product aborts the item loop with an error. -/
theorem itemsLoop_error_of_missing (products : List ProductRow) :
    ∀ (details : List OrderItemRow) (st tx tot : ℚ) (acc : List OrderItem),
      (∃ d ∈ details, products.find? (fun p => p.uid = d.product_uid) = none) →
      ∃ e, itemsLoop products details st tx tot acc = .error e := by
  intro details
  induction details with
  | nil => intro _ _ _ _ h; simp at h
  | cons d0 rest ih =>
    intro st tx tot acc h
    rcases h with ⟨d, hd, hnone⟩
    cases hf : products.find? (fun p => p.uid = d0.product_uid) with
    | none => exact ⟨.missingProduct d0.product_uid, by simp [itemsLoop, hf]⟩
    | some p =>
      rcases List.mem_cons.mp hd with rfl | hd
      · rw [hf] at hnone; exact absurd hnone (by simp)
      · rcases ih (st + (d0.quantity : ℚ) * p.unit_price)
            ((st + (d0.quantity : ℚ) * p.unit_price) * p.tax_rate)
            ((st + (d0.quantity : ℚ) * p.unit_price) +
              (st + (d0.quantity : ℚ) * p.unit_price) * p.tax_rate)
            (acc ++ [mkOrderItem (d0, p)]) ⟨d, hd, hnone⟩ with ⟨e, he⟩
        exact ⟨e, by simp only [itemsLoop, hf]; exact he⟩

/-- When every product resolves, the item loop returns: the running
subtotal advanced by the whole pair sum; taxes and total rederived
from the full subtotal and the last pair's tax rate (unchanged when
there is no pair); and the accumulated items appended in pair order. -/
theorem itemsLoop_spec (products : List ProductRow) :
    ∀ (details : List OrderItemRow) (pairs : List (OrderItemRow × ProductRow)),
      resolvePairs products details = some pairs →
      ∀ (st tx tot : ℚ) (acc : List OrderItem),
        itemsLoop products details st tx tot acc =
          .ok (st + pairSum pairs,
               pairs.getLast?.elim tx (fun q => (st + pairSum pairs) * q.2.tax_rate),
               pairs.getLast?.elim tot
                 (fun q => (st + pairSum pairs) + (st + pairSum pairs) * q.2.tax_rate),
               acc ++ pairs.map mkOrderItem) := by
  intro details
  induction details with
  | nil =>
    intro pairs h st tx tot acc
    simp only [resolvePairs, Option.some.injEq] at h
    subst h
    simp [itemsLoop, pairSum]
  | cons d rest ih =>
    intro pairs h st tx tot acc
    simp only [resolvePairs] at h
    cases hf : products.find? (fun p => p.uid = d.product_uid) with
    | none => rw [hf] at h; exact absurd h (by simp)
    | some p =>
      rw [hf] at h
      cases hr : resolvePairs products rest with
      | none => rw [hr] at h; exact absurd h (by simp)
      | some ps =>
        rw [hr] at h
        replace h : (d, p) :: ps = pairs := by simpa using h
        subst h
        have step := ih ps hr (st + (d.quantity : ℚ) * p.unit_price)
          ((st + (d.quantity : ℚ) * p.unit_price) * p.tax_rate)
          ((st + (d.quantity : ℚ) * p.unit_price) +
            (st + (d.quantity : ℚ) * p.unit_price) * p.tax_rate)
          (acc ++ [mkOrderItem (d, p)])
        have hsum : st + (d.quantity : ℚ) * p.unit_price + pairSum ps =
            st + pairSum ((d, p) :: ps) := by
          simp [pairSum]; ring
        cases ps with
        | nil =>
          simp only [itemsLoop, hf, step]
          simp [pairSum]
        | cons q qs =>
          simp only [itemsLoop, hf, step]
          rw [List.getLast?_cons_cons]
          cases hql : (q :: qs).getLast? with
          | none => simp [List.getLast?] at hql
          | some qlast => simp [hsum]

/-- A missing product also makes `resolvePairs` fail, and then the
loop aborts. -/
theorem itemsLoop_error_of_resolvePairs_none (products : List ProductRow) :
    ∀ (details : List OrderItemRow), resolvePairs products details = none →
      ∀ (st tx tot : ℚ) (acc : List OrderItem),
        ∃ e, itemsLoop products details st tx tot acc = .error e := by
  intro details
  induction details with
  | nil => intro h; simp [resolvePairs] at h
  | cons d rest ih =>
    intro h st tx tot acc
    cases hf : products.find? (fun p => p.uid = d.product_uid) with
    | none => exact ⟨.missingProduct d.product_uid, by simp [itemsLoop, hf]⟩
    | some p =>
      simp only [resolvePairs, hf] at h
      cases hr : resolvePairs products rest with
      | none =>
        rcases ih hr (st + (d.quantity : ℚ) * p.unit_price)
          ((st + (d.quantity : ℚ) * p.unit_price) * p.tax_rate)
          ((st + (d.quantity : ℚ) * p.unit_price) +
            (st + (d.quantity : ℚ) * p.unit_price) * p.tax_rate)
          (acc ++ [mkOrderItem (d, p)]) with ⟨e, he⟩
        exact ⟨e, by simp only [itemsLoop, hf]; exact he⟩
      | some ps => rw [hr] at h; simp at h

/-- Inversion of a successful per-order aggregation: the client and
all products resolved, the item list was non-empty, and every field
of the produced record is determined as the script computes it. -/
theorem aggregateOrder_ok_inv (db : Database) (order : OrderRow) (rec : Order)
    (h : aggregateOrder db order = .ok rec) :
    ∃ client pairs best,
      db.clients.find? (fun c => c.uid = order.client_uid) = some client ∧
      resolvePairs db.products
        (db.order_items.filter (fun d => d.order_uid = order.uid)) = some pairs ∧
      pyMaxBy (fun oi => oi.quantity) (pairs.map mkOrderItem) = some best ∧
      rec = { uid := order.uid
              date_of_order := order.date_of_order
              client_uid := client.uid
              client_name := client.name
              client_address := client.address
              latitude := order.latitude
              longitude := order.longitude
              status := order.status
              subtotal := pairSum pairs
              taxes := pairs.getLast?.elim 0 (fun q => pairSum pairs * q.2.tax_rate)
              total := pairs.getLast?.elim 0
                (fun q => pairSum pairs + pairSum pairs * q.2.tax_rate)
              is_promotion_day :=
                weekday_short_name order.date_of_order == client.promotion_day
              most_popular_brand := best.brand
              order_items := pairs.map mkOrderItem } := by
  simp only [aggregateOrder] at h
  cases hr : resolvePairs db.products
      (db.order_items.filter (fun d => d.order_uid = order.uid)) with
  | none =>
    rcases itemsLoop_error_of_resolvePairs_none db.products _ hr 0 0 0 [] with ⟨e, he⟩
    rw [he] at h
    simp at h
  | some pairs =>
    rw [itemsLoop_spec db.products _ pairs hr 0 0 0 []] at h
    simp only [zero_add, List.nil_append] at h
    cases hc : db.clients.find? (fun c => c.uid = order.client_uid) with
    | none => rw [hc] at h; simp at h
    | some client =>
      rw [hc] at h
      cases hm : pyMaxBy (fun oi => oi.quantity) (pairs.map mkOrderItem) with
      | none => rw [hm] at h; simp at h
      | some best =>
        rw [hm] at h
        simp only [Except.ok.injEq] at h
        exact ⟨client, pairs, best, rfl, rfl, hm, h.symm⟩

/-! Python `max` with a key returns the first element attaining the
maximal key; relating the fold to a specification-side stable
argmax. -/

theorem find?_cons_eq_true {p : α → Bool} {a : α} (l : List α) (h : p a = true) :
    List.find? p (a :: l) = some a := by
  simp [List.find?, h]

theorem find?_cons_eq_false {p : α → Bool} {a : α} (l : List α) (h : p a = false) :
    List.find? p (a :: l) = List.find? p l := by
  simp [List.find?, h]

theorem foldl_max_find (key : α → ℕ) :
    ∀ (xs : List α) (x : α),
      List.find?
          (fun it => decide (key x ≤ key it) && xs.all (fun z => decide (key z ≤ key it)))
          (x :: xs) =
        some (xs.foldl (fun best y => if key best < key y then y else best) x) := by
  intro xs
  induction xs with
  | nil =>
    intro x
    simp [List.find?]
  | cons y ys ih =>
    intro x
    simp only [List.foldl_cons]
    by_cases hxy : key x < key y
    · rw [if_pos hxy]
      have hpq :
          (fun it => decide (key x ≤ key it) &&
            (y :: ys).all (fun z => decide (key z ≤ key it))) =
          (fun it => decide (key y ≤ key it) && ys.all (fun z => decide (key z ≤ key it))) := by
        funext it
        by_cases h : key y ≤ key it
        · simp [List.all_cons, h, Nat.le_of_lt (Nat.lt_of_lt_of_le hxy h)]
        · simp [List.all_cons, h]
      rw [hpq]
      rw [find?_cons_eq_false
        (p := fun it => decide (key y ≤ key it) && ys.all (fun z => decide (key z ≤ key it)))
        (a := x) (y :: ys) (by simp [Nat.not_le.mpr hxy])]
      exact ih y
    · rw [if_neg hxy]
      have hyx : key y ≤ key x := Nat.le_of_not_lt hxy
      have hpq :
          (fun it => decide (key x ≤ key it) &&
            (y :: ys).all (fun z => decide (key z ≤ key it))) =
          (fun it => decide (key x ≤ key it) && ys.all (fun z => decide (key z ≤ key it))) := by
        funext it
        by_cases h : key x ≤ key it
        · simp [List.all_cons, h, Nat.le_trans hyx h]
        · simp [h]
      rw [hpq]
      by_cases hx : (decide (key x ≤ key x) && ys.all (fun z => decide (key z ≤ key x))) = true
      · rw [find?_cons_eq_true
          (p := fun it => decide (key x ≤ key it) && ys.all (fun z => decide (key z ≤ key it)))
          (a := x) (y :: ys) hx]
        have hthis := ih x
        rw [find?_cons_eq_true
          (p := fun it => decide (key x ≤ key it) && ys.all (fun z => decide (key z ≤ key it)))
          (a := x) ys hx] at hthis
        exact hthis
      · have hx' :
            (decide (key x ≤ key x) && ys.all (fun z => decide (key z ≤ key x))) = false := by
          simpa using hx
        have hallf : ys.all (fun z => decide (key z ≤ key x)) = false := by
          simpa using hx'
        have hyfalse :
            (decide (key x ≤ key y) && ys.all (fun z => decide (key z ≤ key y))) = false := by
          by_cases hxy2 : key x ≤ key y
          · have hEq : key y = key x := Nat.le_antisymm hyx hxy2
            have hfun : (fun z : α => decide (key z ≤ key y)) =
                (fun z : α => decide (key z ≤ key x)) := by
              funext z; rw [hEq]
            rw [hfun]
            simp [hallf]
          · simp [hxy2]
        rw [find?_cons_eq_false
          (p := fun it => decide (key x ≤ key it) && ys.all (fun z => decide (key z ≤ key it)))
          (a := x) (y :: ys) hx']
        rw [find?_cons_eq_false
          (p := fun it => decide (key x ≤ key it) && ys.all (fun z => decide (key z ≤ key it)))
          (a := y) ys hyfalse]
        have hthis := ih x
        rw [find?_cons_eq_false
          (p := fun it => decide (key x ≤ key it) && ys.all (fun z => decide (key z ≤ key it)))
          (a := x) ys hx'] at hthis
        exact hthis

/-- `pyMaxBy` is the first element whose key dominates every key of
the list. -/
theorem pyMaxBy_eq_find_max (key : α → ℕ) (l : List α) :
    pyMaxBy key l = l.find? (fun it => l.all (fun z => decide (key z ≤ key it))) := by
  cases l with
  | nil => rfl
  | cons x xs =>
    rw [pyMaxBy, ← foldl_max_find key xs x]
    congr 1

/-! The outer loop: success and failure characterizations. -/

/-- A successful run produces exactly the per-order aggregations, in
the row order of the orders query. -/
theorem runAggregationAux_ok (db : Database) :
    ∀ (rest : List OrderRow) (acc out : List Order),
      runAggregationAux db rest acc = .ok out →
      ∃ produced, out = acc ++ produced ∧
        List.Forall₂ (fun row rec => aggregateOrder db row = .ok rec) rest produced := by
  intro rest
  induction rest with
  | nil =>
    intro acc out h
    simp only [runAggregationAux, Except.ok.injEq] at h
    exact ⟨[], by simp [← h], List.Forall₂.nil⟩
  | cons o rest ih =>
    intro acc out h
    cases ha : aggregateOrder db o with
    | error e => rw [runAggregationAux, ha] at h; simp at h
    | ok r =>
      rw [runAggregationAux, ha] at h
      rcases ih (acc ++ [r]) out h with ⟨produced, hout, hall⟩
      exact ⟨r :: produced, by simp [hout], List.Forall₂.cons ha hall⟩

/-- If any order row in the remaining list fails to aggregate, the
whole loop aborts with an error. -/
theorem runAggregationAux_error (db : Database) :
    ∀ (rest : List OrderRow) (acc : List Order) (o : OrderRow),
      o ∈ rest → (∃ e, aggregateOrder db o = .error e) →
      ∃ e, runAggregationAux db rest acc = .error e := by
  intro rest
  induction rest with
  | nil => intro acc o hmem; simp at hmem
  | cons o0 rest ih =>
    intro acc o hmem hfail
    cases ha : aggregateOrder db o0 with
    | error e => exact ⟨e, by rw [runAggregationAux, ha]⟩
    | ok r =>
      rcases List.mem_cons.mp hmem with rfl | hmem
      · rcases hfail with ⟨e, he⟩
        rw [ha] at he
        exact absurd he (by simp)
      · rcases ih (acc ++ [r]) o hmem hfail with ⟨e, he⟩
        exact ⟨e, by rw [runAggregationAux, ha]; exact he⟩

/-! The writer (lines 127-143 of the script): serialization to
documents, the unique index on `uid`, `insert_many(..., ordered=False)`
and the `try/except` that absorbs `DuplicateKeyError` and
`BulkWriteError`. Only the `uid`-uniqueness behavior of the
destination store is relevant; a document is embedded as the `Order`
record it serializes. -/

/-- Severities of the logging module used by the script. -/
inductive LogSeverity where
  | debug
  | info
  | error
  deriving DecidableEq, Repr

/-- Modelled from the spec (destination store write contract):
`insert_many` with `ordered=False` against a collection holding a
unique index on `uid` inserts, in document order, every document
whose `uid` is not yet present, and reports a duplicate-key conflict
(a `BulkWriteError` carrying the write errors) when at least one
document collided. Returns the new collection contents and whether a
conflict occurred. -/
def insert_many (docs : List Order) (coll : List Order) : List Order × Bool :=
  docs.foldl
    (fun acc d =>
      if acc.1.any (fun e => e.uid == d.uid) then (acc.1, true)
      else (acc.1 ++ [d], acc.2))
    (coll, false)

/-- Outcome of one writer invocation: the collection contents after
the write, the severity at which the handler logged a caught
duplicate-key/bulk-write conflict (if one was raised), and whether an
exception escaped the `try/except`. -/
structure WriteResult where
  coll : List Order
  logged : Option LogSeverity
  propagated : Bool
  deriving DecidableEq, Repr

/-- The writer block: run `insert_many`; a raised `DuplicateKeyError`
or `BulkWriteError` is caught and logged with `logging.debug`, so it
never escapes. -/
def writeOrders (docs : List Order) (coll : List Order) : WriteResult :=
  let r := insert_many docs coll
  if r.2 then { coll := r.1, logged := some LogSeverity.debug, propagated := false }
  else { coll := r.1, logged := none, propagated := false }

/-- Membership test used by the unique index. -/
def hasUid (coll : List Order) (u : String) : Bool :=
  coll.any (fun e => e.uid == u)

theorem insert_many_fold_mono (docs : List Order) :
    ∀ (c : List Order) (b : Bool) (u : String), hasUid c u = true →
      hasUid (docs.foldl
        (fun acc d =>
          if acc.1.any (fun e => e.uid == d.uid) then (acc.1, true)
          else (acc.1 ++ [d], acc.2)) (c, b)).1 u = true := by
  induction docs with
  | nil => intro c b u h; simpa using h
  | cons d rest ih =>
    intro c b u h
    simp only [List.foldl_cons]
    by_cases hd : c.any (fun e => e.uid == d.uid) = true
    · rw [if_pos hd]
      exact ih c true u h
    · rw [if_neg hd]
      refine ih (c ++ [d]) b u ?_
      unfold hasUid at h ⊢
      simp only [List.any_append, h, Bool.true_or]

theorem insert_many_fold_present (docs : List Order) :
    ∀ (c : List Order) (b : Bool) (d : Order), d ∈ docs →
      hasUid (docs.foldl
        (fun acc d =>
          if acc.1.any (fun e => e.uid == d.uid) then (acc.1, true)
          else (acc.1 ++ [d], acc.2)) (c, b)).1 d.uid = true := by
  induction docs with
  | nil => intro c b d h; simp at h
  | cons d0 rest ih =>
    intro c b d h
    simp only [List.foldl_cons]
    rcases List.mem_cons.mp h with rfl | h
    · by_cases hd : c.any (fun e => e.uid == d.uid) = true
      · rw [if_pos hd]
        exact insert_many_fold_mono rest c true d.uid (by simpa [hasUid] using hd)
      · rw [if_neg hd]
        refine insert_many_fold_mono rest (c ++ [d]) b d.uid ?_
        simp [hasUid]
    · by_cases hd : c.any (fun e => e.uid == d0.uid) = true
      · rw [if_pos hd]; exact ih c true d h
      · rw [if_neg hd]; exact ih (c ++ [d0]) b d h

/-- When every document's `uid` is already present, the fold leaves
the collection unchanged and flags a conflict for a non-empty batch. -/
theorem insert_many_fold_noop (docs : List Order) :
    ∀ (c : List Order) (b : Bool),
      (∀ d ∈ docs, hasUid c d.uid = true) →
      (docs.foldl
        (fun acc d =>
          if acc.1.any (fun e => e.uid == d.uid) then (acc.1, true)
          else (acc.1 ++ [d], acc.2)) (c, b)) = (c, b || !docs.isEmpty) := by
  induction docs with
  | nil => intro c b _; simp
  | cons d0 rest ih =>
    intro c b hall
    have hd0 : c.any (fun e => e.uid == d0.uid) = true := by
      have := hall d0 (by simp)
      simpa [hasUid] using this
    simp only [List.foldl_cons, if_pos hd0]
    rw [ih c true (fun d hd => hall d (List.mem_cons_of_mem _ hd))]
    simp

/-- The fold preserves `uid`-uniqueness of the collection. -/
theorem insert_many_fold_nodup (docs : List Order) :
    ∀ (c : List Order) (b : Bool),
      (c.map Order.uid).Nodup →
      ((docs.foldl
        (fun acc d =>
          if acc.1.any (fun e => e.uid == d.uid) then (acc.1, true)
          else (acc.1 ++ [d], acc.2)) (c, b)).1.map Order.uid).Nodup := by
  induction docs with
  | nil => intro c b h; simpa using h
  | cons d0 rest ih =>
    intro c b h
    simp only [List.foldl_cons]
    by_cases hd : c.any (fun e => e.uid == d0.uid) = true
    · rw [if_pos hd]; exact ih c true h
    · rw [if_neg hd]
      refine ih (c ++ [d0]) b ?_
      have hnot : d0.uid ∉ c.map Order.uid := by
        intro hmem
        rcases List.mem_map.mp hmem with ⟨e, he, heq⟩
        exact hd (List.any_eq_true.mpr ⟨e, he, by simp [heq]⟩)
      simp only [List.map_append, List.map_cons, List.map_nil]
      rw [List.nodup_append]
      exact ⟨h, List.nodup_singleton _, by
        intro u hu hu2
        simp only [List.mem_singleton] at hu2
        exact hnot (hu2 ▸ hu)⟩

/-! The locale helper (lines 46-65 of the script), with the
process-wide locale setting threaded as explicit state. -/

/-- Modelled from the spec/runtime: `locale.setlocale(LC_ALL, code)`
switches the process-wide setting and returns it when the environment
supports `code`, and raises `locale.Error` (leaving the setting
untouched) otherwise. -/
def setlocaleCall (supported : String → Bool) (code : String) (s : String) :
    Except Unit String × String :=
  if supported code then (.ok code, code) else (.error (), s)

/-- The `setlocale` context manager: query and save the current
setting, switch to `code`, run the body under the switched locale,
and restore the saved setting in the `finally` block — also when the
switch itself or the body raises. -/
def setlocaleCtx (supported : String → Bool) (code : String)
    (body : String → Except Unit α) (s : String) : Except Unit α × String :=
  let saved := s
  match setlocaleCall supported code s with
  | (.error e, _) => (.error e, saved)
  | (.ok _, s1) =>
    match body s1 with
    | .ok a => (.ok a, saved)
    | .error e => (.error e, saved)

/-- `weekday_short_name` with the locale state made explicit:
`strftime` runs under the swapped locale (and may itself fail), its
result is uppercased. -/
def weekday_short_name_st (strftimeA : Date → String → Except Unit String)
    (supported : String → Bool) (d : Date) (code : String) (s : String) :
    Except Unit String × String :=
  setlocaleCtx supported code (fun loc => (strftimeA d loc).map pyUpper) s

/-! Concrete example data, used to instantiate the theorems below. -/

def exP1 : ProductRow :=
  { uid := "P1", name := "N1", brand := "BrandX", unit_price := 10, tax_rate := 1/10 }

def exP2 : ProductRow :=
  { uid := "P2", name := "N2", brand := "BrandY", unit_price := 5, tax_rate := 1/5 }

def exPA : ProductRow :=
  { uid := "PA", name := "NA", brand := "A", unit_price := 2, tax_rate := 1/10 }

def exPB : ProductRow :=
  { uid := "PB", name := "NB", brand := "B", unit_price := 3, tax_rate := 1/10 }

def exPC : ProductRow :=
  { uid := "PC", name := "NC", brand := "C", unit_price := 4, tax_rate := 1/2 }

def exCL1 : ClientRow :=
  { uid := "CL1", name := "Alice", address := "Addr1", promotion_day := "MON",
    latitude := 99, longitude := 98 }

def exCL2 : ClientRow :=
  { uid := "CL2", name := "Bob", address := "Addr2", promotion_day := "TUE",
    latitude := 50, longitude := 51 }

/-- Jan 1, 2024 is a Monday; the script resolves it to "MON". -/
theorem weekday_short_name_20240101 : weekday_short_name ⟨2024, 1, 1⟩ = "MON" := rfl

/-- Jan 2, 2024 is a Tuesday; the script resolves it to "TUE". -/
theorem weekday_short_name_20240102 : weekday_short_name ⟨2024, 1, 2⟩ = "TUE" := rfl

def exI11 : OrderItemRow := { order_uid := "O1", product_uid := "P1", quantity := 2 }

def exI12 : OrderItemRow := { order_uid := "O1", product_uid := "P2", quantity := 1 }

def exO1 : OrderRow :=
  { uid := "O1", client_uid := "CL1", date_of_order := ⟨2024, 1, 1⟩,
    latitude := 1, longitude := 2, status := "open" }

/-- The spec §8 example: items [(qty=2, price=10, tax=0.1), (qty=1,
price=5, tax=0.2)] on a Monday order of a "MON"-promotion client. -/
def exDb1 : Database :=
  { orders := [exO1], clients := [exCL1], order_items := [exI11, exI12],
    products := [exP1, exP2] }

def exPairs1 : List (OrderItemRow × ProductRow) := [(exI11, exP1), (exI12, exP2)]

def exRec1 : Order :=
  { uid := "O1", date_of_order := ⟨2024, 1, 1⟩, client_uid := "CL1",
    client_name := "Alice", client_address := "Addr1", latitude := 1, longitude := 2,
    status := "open", subtotal := 25, taxes := 5, total := 30,
    is_promotion_day := true, most_popular_brand := "BrandX",
    order_items :=
      [{ uid := "P1", quantity := 2, price := 10, name := "N1", brand := "BrandX" },
       { uid := "P2", quantity := 1, price := 5, name := "N2", brand := "BrandY" }] }

theorem exDb1_eval : aggregateOrder exDb1 exO1 = .ok exRec1 := by
  simp [aggregateOrder, itemsLoop, mkOrderItem, pyMaxBy, weekday_short_name_20240101,
    exDb1, exO1, exCL1, exP1, exP2, exI11, exI12, exRec1, List.filter, List.find?] <;>
  norm_num

theorem exDb1_pairs :
    resolvePairs exDb1.products
      (exDb1.order_items.filter (fun d => d.order_uid = exO1.uid)) = some exPairs1 := by
  simp [resolvePairs, exDb1, exO1, exP1, exP2, exI11, exI12, exPairs1,
    List.filter, List.find?]

/-- An order with zero order-item rows (for the empty-items edge
case). -/
def exO2 : OrderRow :=
  { uid := "O2", client_uid := "CL1", date_of_order := ⟨2024, 1, 2⟩,
    latitude := 0, longitude := 0, status := "open" }

def exDb2 : Database :=
  { orders := [exO2], clients := [exCL1], order_items := [], products := [] }

def exI41 : OrderItemRow := { order_uid := "O4", product_uid := "PA", quantity := 3 }

def exI42 : OrderItemRow := { order_uid := "O4", product_uid := "PB", quantity := 3 }

def exI43 : OrderItemRow := { order_uid := "O4", product_uid := "PC", quantity := 1 }

def exO4 : OrderRow :=
  { uid := "O4", client_uid := "CL1", date_of_order := ⟨2024, 1, 1⟩,
    latitude := 5, longitude := 6, status := "open" }

/-- The spec §8 tie-break example: quantities [3, 3, 1] with brands
[A, B, C] in that order. -/
def exDb4 : Database :=
  { orders := [exO4], clients := [exCL1], order_items := [exI41, exI42, exI43],
    products := [exPA, exPB, exPC] }

def exRec4 : Order :=
  { uid := "O4", date_of_order := ⟨2024, 1, 1⟩, client_uid := "CL1",
    client_name := "Alice", client_address := "Addr1", latitude := 5, longitude := 6,
    status := "open", subtotal := 19, taxes := 19/2, total := 57/2,
    is_promotion_day := true, most_popular_brand := "A",
    order_items :=
      [{ uid := "PA", quantity := 3, price := 2, name := "NA", brand := "A" },
       { uid := "PB", quantity := 3, price := 3, name := "NB", brand := "B" },
       { uid := "PC", quantity := 1, price := 4, name := "NC", brand := "C" }] }

theorem exDb4_eval : aggregateOrder exDb4 exO4 = .ok exRec4 := by
  simp [aggregateOrder, itemsLoop, mkOrderItem, pyMaxBy, weekday_short_name_20240101,
    exDb4, exO4, exCL1, exPA, exPB, exPC, exI41, exI42, exI43, exRec4,
    List.filter, List.find?] <;>
  norm_num

def exI61 : OrderItemRow := { order_uid := "O6", product_uid := "P1", quantity := 1 }

def exO6 : OrderRow :=
  { uid := "O6", client_uid := "CL2", date_of_order := ⟨2024, 1, 1⟩,
    latitude := 3, longitude := 4, status := "open" }

/-- A Monday order of a client whose promotion day is "TUE". -/
def exDb6 : Database :=
  { orders := [exO6], clients := [exCL2], order_items := [exI61], products := [exP1] }

def exRec6 : Order :=
  { uid := "O6", date_of_order := ⟨2024, 1, 1⟩, client_uid := "CL2",
    client_name := "Bob", client_address := "Addr2", latitude := 3, longitude := 4,
    status := "open", subtotal := 10, taxes := 1, total := 11,
    is_promotion_day := false, most_popular_brand := "BrandX",
    order_items :=
      [{ uid := "P1", quantity := 1, price := 10, name := "N1", brand := "BrandX" }] }

theorem exDb6_eval : aggregateOrder exDb6 exO6 = .ok exRec6 := by
  simp [aggregateOrder, itemsLoop, mkOrderItem, pyMaxBy, weekday_short_name_20240101,
    exDb6, exO6, exCL2, exP1, exI61, exRec6, List.filter, List.find?] <;>
  norm_num

/-- An order row referencing a client uid that no client row has. -/
def exO5 : OrderRow :=
  { uid := "O5", client_uid := "MISSING", date_of_order := ⟨2024, 1, 1⟩,
    latitude := 0, longitude := 0, status := "open" }

def exDb5 : Database :=
  { orders := [exO5], clients := [exCL1],
    order_items := [{ order_uid := "O5", product_uid := "P1", quantity := 1 }],
    products := [exP1] }

def exO83 : OrderRow :=
  { uid := "O3", client_uid := "CL1", date_of_order := ⟨2024, 1, 1⟩,
    latitude := 0, longitude := 0, status := "s3" }

def exO81 : OrderRow :=
  { uid := "O1", client_uid := "CL1", date_of_order := ⟨2024, 1, 1⟩,
    latitude := 0, longitude := 0, status := "s1" }

def exO82 : OrderRow :=
  { uid := "O2", client_uid := "CL1", date_of_order := ⟨2024, 1, 1⟩,
    latitude := 0, longitude := 0, status := "s2" }

/-- The spec §8 ordering example: the orders query returns the rows
in sequence [O3, O1, O2]. -/
def exDb8 : Database :=
  { orders := [exO83, exO81, exO82], clients := [exCL1],
    order_items :=
      [{ order_uid := "O1", product_uid := "P2", quantity := 2 },
       { order_uid := "O2", product_uid := "P1", quantity := 3 },
       { order_uid := "O3", product_uid := "P1", quantity := 1 }],
    products := [exP1, exP2] }

def exRec83 : Order :=
  { uid := "O3", date_of_order := ⟨2024, 1, 1⟩, client_uid := "CL1",
    client_name := "Alice", client_address := "Addr1", latitude := 0, longitude := 0,
    status := "s3", subtotal := 10, taxes := 1, total := 11,
    is_promotion_day := true, most_popular_brand := "BrandX",
    order_items :=
      [{ uid := "P1", quantity := 1, price := 10, name := "N1", brand := "BrandX" }] }

def exRec81 : Order :=
  { uid := "O1", date_of_order := ⟨2024, 1, 1⟩, client_uid := "CL1",
    client_name := "Alice", client_address := "Addr1", latitude := 0, longitude := 0,
    status := "s1", subtotal := 10, taxes := 2, total := 12,
    is_promotion_day := true, most_popular_brand := "BrandY",
    order_items :=
      [{ uid := "P2", quantity := 2, price := 5, name := "N2", brand := "BrandY" }] }

def exRec82 : Order :=
  { uid := "O2", date_of_order := ⟨2024, 1, 1⟩, client_uid := "CL1",
    client_name := "Alice", client_address := "Addr1", latitude := 0, longitude := 0,
    status := "s2", subtotal := 30, taxes := 3, total := 33,
    is_promotion_day := true, most_popular_brand := "BrandX",
    order_items :=
      [{ uid := "P1", quantity := 3, price := 10, name := "N1", brand := "BrandX" }] }

theorem exDb8_eval : runAggregation exDb8 = .ok [exRec83, exRec81, exRec82] := by
  simp [runAggregation, runAggregationAux, aggregateOrder, itemsLoop, mkOrderItem,
    pyMaxBy, weekday_short_name_20240101, exDb8, exO83, exO81, exO82, exCL1,
    exP1, exP2, exRec83, exRec81, exRec82, List.filter, List.find?] <;>
  norm_num

/-! Claim theorems. -/

/-- C1: for every order whose resolved (order-item, product) pair
list is non-empty, the record produced by the aggregation loop has
subtotal equal to the sum of quantity times unit price over all
pairs, taxes equal to that full cumulative subtotal times the tax
rate of the last iterated product, and total equal to subtotal plus
taxes. -/
theorem aggregate_totals_formula (db : Database) (order : OrderRow) (rec : Order)
    (pairs : List (OrderItemRow × ProductRow)) (dl : OrderItemRow) (pl : ProductRow)
    (h : aggregateOrder db order = .ok rec)
    (hpairs : resolvePairs db.products
      (db.order_items.filter (fun d => d.order_uid = order.uid)) = some pairs)
    (hlast : pairs.getLast? = some (dl, pl)) :
    rec.subtotal = pairSum pairs ∧
    rec.taxes = rec.subtotal * pl.tax_rate ∧
    rec.total = rec.subtotal + rec.taxes := by
  rcases aggregateOrder_ok_inv db order rec h with ⟨client, pairs2, best, hc, hp2, hm, hrec⟩
  rw [hpairs] at hp2
  injection hp2 with hp2
  subst hp2
  subst hrec
  simp [hlast]

/-- C1 witness: the spec §8 arithmetic example evaluates to
subtotal 25, taxes 5, total 30 with the last tax rate 1/5. -/
theorem aggregate_totals_formula_witness :
    exRec1.subtotal = pairSum exPairs1 ∧
    exRec1.taxes = exRec1.subtotal * exP2.tax_rate ∧
    exRec1.total = exRec1.subtotal + exRec1.taxes ∧
    exRec1.subtotal = 25 ∧ exRec1.taxes = 5 ∧ exRec1.total = 30 := by
  have h := aggregate_totals_formula exDb1 exO1 exRec1 exPairs1 exI12 exP2
    exDb1_eval exDb1_pairs (by simp [exPairs1])
  exact ⟨h.1, h.2.1, h.2.2, rfl, rfl, rfl⟩

/-- C2: the script does not handle an order with zero order-item
rows: `max(order_items, ...)` is reached with an empty list and
raises `ValueError`, so the aggregation crashes instead of producing
a degenerate record (at that point the running subtotal, taxes and
total are still 0). -/
theorem empty_items_raises :
    aggregateOrder exDb2 exO2 = .error .emptyItemsMax ∧
    itemsLoop exDb2.products
      (exDb2.order_items.filter (fun d => d.order_uid = exO2.uid)) 0 0 0 [] =
      .ok (0, 0, 0, []) := by
  constructor
  · simp [aggregateOrder, itemsLoop, pyMaxBy, exDb2, exO2, exCL1, List.filter,
      List.find?]
  · simp [itemsLoop, exDb2, exO2, List.filter]

/-- C3 counterexample: in the example database the client row carries
latitude 99 and longitude 98, but the produced record carries the
order row's latitude 1 and longitude 2, so latitude and longitude
are not copied from the resolved client row. -/
theorem location_from_client_counterexample :
    aggregateOrder exDb1 exO1 = .ok exRec1 ∧
    exDb1.clients.find? (fun c => c.uid = exO1.client_uid) = some exCL1 ∧
    exRec1.latitude = exO1.latitude ∧
    exRec1.longitude = exO1.longitude ∧
    exRec1.latitude ≠ exCL1.latitude ∧
    exRec1.longitude ≠ exCL1.longitude := by
  refine ⟨exDb1_eval, by simp [exDb1, exO1, exCL1, List.find?], rfl, rfl, ?_, ?_⟩
  · show (1 : ℚ) ≠ 99
    norm_num
  · show (2 : ℚ) ≠ 98
    norm_num

/-- C3 (amended): `client_uid`, `client_name` and `client_address`
are copied from the resolved client row, while `latitude` and
`longitude` are copied from the order row. -/
theorem order_record_field_provenance (db : Database) (order : OrderRow) (rec : Order)
    (client : ClientRow)
    (h : aggregateOrder db order = .ok rec)
    (hc : db.clients.find? (fun c => c.uid = order.client_uid) = some client) :
    rec.client_uid = client.uid ∧ rec.client_name = client.name ∧
    rec.client_address = client.address ∧
    rec.latitude = order.latitude ∧ rec.longitude = order.longitude := by
  rcases aggregateOrder_ok_inv db order rec h with ⟨client2, pairs, best, hc2, hp, hm, hrec⟩
  rw [hc] at hc2
  injection hc2 with hc2
  subst hc2
  subst hrec
  simp

/-- C3 (amended) witness: identity fields come from client CL1 and
the coordinates come from order O1. -/
theorem order_record_field_provenance_witness :
    exRec1.client_uid = exCL1.uid ∧ exRec1.client_name = exCL1.name ∧
    exRec1.client_address = exCL1.address ∧
    exRec1.latitude = exO1.latitude ∧ exRec1.longitude = exO1.longitude :=
  order_record_field_provenance exDb1 exO1 exRec1 exCL1 exDb1_eval
    (by simp [exDb1, exO1, exCL1, List.find?])

/-- Modelled from the spec: the stable argmax over insertion order —
the first item of the list whose quantity is greater than or equal to
every item's quantity. -/
def specStableArgmax (items : List OrderItem) : Option OrderItem :=
  items.find? (fun it => items.all (fun z => z.quantity ≤ it.quantity))

/-- C4: the most popular brand of a produced record is the brand of
the stable argmax (maximum quantity, first occurrence in iteration
order wins) over the record's item list. -/
theorem most_popular_brand_stable_argmax (db : Database) (order : OrderRow) (rec : Order)
    (h : aggregateOrder db order = .ok rec) :
    (specStableArgmax rec.order_items).map (fun oi => oi.brand) =
      some rec.most_popular_brand := by
  rcases aggregateOrder_ok_inv db order rec h with ⟨client, pairs, best, hc, hp, hm, hrec⟩
  subst hrec
  rw [pyMaxBy_eq_find_max] at hm
  simp only [specStableArgmax]
  rw [hm]
  rfl

/-- C4 witness: for quantities [3, 3, 1] with brands [A, B, C] in
that order the script returns "A". -/
theorem most_popular_brand_stable_argmax_witness :
    (specStableArgmax exRec4.order_items).map (fun oi => oi.brand) =
      some exRec4.most_popular_brand ∧
    exRec4.most_popular_brand = "A" :=
  ⟨most_popular_brand_stable_argmax exDb4 exO4 exRec4 exDb4_eval, rfl⟩

/-- C5: an order row whose client lookup returns no row, or one of
whose item rows has a product lookup returning no row, makes the
per-order aggregation raise, and the whole run aborts with an error
instead of producing an output list. -/
theorem missing_reference_aborts (db : Database) (order : OrderRow)
    (hmem : order ∈ db.orders)
    (hmiss : db.clients.find? (fun c => c.uid = order.client_uid) = none ∨
      ∃ d ∈ db.order_items.filter (fun d => d.order_uid = order.uid),
        db.products.find? (fun p => p.uid = d.product_uid) = none) :
    (∃ e, aggregateOrder db order = .error e) ∧
    ∀ out, runAggregation db ≠ .ok out := by
  have hfail : ∃ e, aggregateOrder db order = .error e := by
    rcases hmiss with hc | ⟨d, hd, hp⟩
    · cases hl : itemsLoop db.products
          (db.order_items.filter (fun d => d.order_uid = order.uid)) 0 0 0 [] with
      | error e => exact ⟨e, by simp only [aggregateOrder]; rw [hl]⟩
      | ok r =>
        obtain ⟨st, tx, tot, items⟩ := r
        exact ⟨.missingClient order.client_uid, by
          simp only [aggregateOrder]
          rw [hl, hc]⟩
    · rcases itemsLoop_error_of_missing db.products _ 0 0 0 [] ⟨d, hd, hp⟩ with ⟨e, he⟩
      exact ⟨e, by simp only [aggregateOrder]; rw [he]⟩
  refine ⟨hfail, ?_⟩
  intro out hok
  rcases runAggregationAux_error db db.orders [] order hmem hfail with ⟨e, he⟩
  rw [runAggregation, he] at hok
  exact absurd hok (by simp)

/-- C5 witness: order O5 references client uid "MISSING"; its
aggregation is not ok and the run produces no output list. -/
theorem missing_reference_aborts_witness :
    (aggregateOrder exDb5 exO5).isOk = false ∧
    runAggregation exDb5 ≠ .ok [] := by
  have h := missing_reference_aborts exDb5 exO5 (by simp [exDb5])
    (Or.inl (by simp [exDb5, exO5, exCL1, List.find?]))
  rcases h.1 with ⟨e, he⟩
  exact ⟨by rw [he]; rfl, h.2 []⟩

/-- C6: a produced record's `is_promotion_day` is true exactly when
the uppercase three-letter weekday abbreviation of the order date
equals the resolved client's stored `promotion_day` string. -/
theorem promotion_day_equality (db : Database) (order : OrderRow) (rec : Order)
    (client : ClientRow)
    (h : aggregateOrder db order = .ok rec)
    (hc : db.clients.find? (fun c => c.uid = order.client_uid) = some client) :
    rec.is_promotion_day = true ↔
      weekday_short_name order.date_of_order = client.promotion_day := by
  rcases aggregateOrder_ok_inv db order rec h with ⟨client2, pairs, best, hc2, hp, hm, hrec⟩
  rw [hc] at hc2
  injection hc2 with hc2
  subst hc2
  subst hrec
  simp [beq_iff_eq]

/-- C6 witness: a Monday order against promotion day "MON" yields
true, and against "TUE" yields false. -/
theorem promotion_day_equality_witness :
    (exRec1.is_promotion_day = true ↔
      weekday_short_name exO1.date_of_order = exCL1.promotion_day) ∧
    exRec1.is_promotion_day = true ∧
    exRec6.is_promotion_day = false :=
  ⟨promotion_day_equality exDb1 exO1 exRec1 exCL1 exDb1_eval
      (by simp [exDb1, exO1, exCL1, List.find?]),
    rfl, rfl⟩

theorem writeOrders_propagated (docs coll : List Order) :
    (writeOrders docs coll).propagated = false := by
  simp only [writeOrders]
  by_cases h : (insert_many docs coll).2 = true <;> simp [h]

theorem writeOrders_coll (docs coll : List Order) :
    (writeOrders docs coll).coll = (insert_many docs coll).1 := by
  simp only [writeOrders]
  by_cases h : (insert_many docs coll).2 = true <;> simp [h]

theorem insert_many_present (docs coll : List Order) (d : Order) (hd : d ∈ docs) :
    hasUid (insert_many docs coll).1 d.uid = true :=
  insert_many_fold_present docs coll false d hd

theorem insert_many_noop (docs coll : List Order)
    (h : ∀ d ∈ docs, hasUid coll d.uid = true) :
    insert_many docs coll = (coll, !docs.isEmpty) := by
  unfold insert_many
  rw [insert_many_fold_noop docs coll false h]
  simp

theorem insert_many_nodup (docs coll : List Order) (h : (coll.map Order.uid).Nodup) :
    ((insert_many docs coll).1.map Order.uid).Nodup :=
  insert_many_fold_nodup docs coll false h

/-- C7: against a destination whose `uid` values are unique, a writer
invocation never lets a duplicate-key or bulk-write conflict escape,
keeps `uid` values unique, and a second invocation with the same
documents changes nothing and logs its (inevitable, for a non-empty
batch) duplicate-key conflict at debug severity. -/
theorem write_rerun_absorbs_duplicates (docs coll : List Order)
    (hnd : (coll.map Order.uid).Nodup) (hne : docs ≠ []) :
    (writeOrders docs coll).propagated = false ∧
    (writeOrders docs (writeOrders docs coll).coll).propagated = false ∧
    ((writeOrders docs coll).coll.map Order.uid).Nodup ∧
    (writeOrders docs (writeOrders docs coll).coll).coll = (writeOrders docs coll).coll ∧
    (writeOrders docs (writeOrders docs coll).coll).logged = some LogSeverity.debug := by
  have hnoop : insert_many docs (insert_many docs coll).1 =
      ((insert_many docs coll).1, !docs.isEmpty) :=
    insert_many_noop docs _ (fun d hd => insert_many_present docs coll d hd)
  have hneb : docs.isEmpty = false := by
    cases docs with
    | nil => exact absurd rfl hne
    | cons a l => rfl
  refine ⟨writeOrders_propagated docs coll, writeOrders_propagated docs _, ?_, ?_, ?_⟩
  · rw [writeOrders_coll]
    exact insert_many_nodup docs coll hnd
  · rw [writeOrders_coll, writeOrders_coll, hnoop]
  · rw [writeOrders_coll]
    simp only [writeOrders, hnoop, hneb]
    simp

/-- C7 witness: writing the batch [exRec1] into an empty collection
twice propagates nothing, leaves the collection with a single
document, and the second run logs at debug severity. -/
theorem write_rerun_absorbs_duplicates_witness :
    (writeOrders [exRec1] []).propagated = false ∧
    (writeOrders [exRec1] (writeOrders [exRec1] []).coll).propagated = false ∧
    ((writeOrders [exRec1] []).coll.map Order.uid).Nodup ∧
    (writeOrders [exRec1] (writeOrders [exRec1] []).coll).coll =
      (writeOrders [exRec1] []).coll ∧
    (writeOrders [exRec1] (writeOrders [exRec1] []).coll).logged =
      some LogSeverity.debug :=
  write_rerun_absorbs_duplicates [exRec1] [] (by simp) (by simp)

theorem forall2_map_uid (db : Database) :
    ∀ (rows : List OrderRow) (recs : List Order),
      List.Forall₂ (fun row rec => aggregateOrder db row = .ok rec) rows recs →
      recs.map Order.uid = rows.map OrderRow.uid := by
  intro rows recs hall
  induction hall with
  | nil => rfl
  | cons hrel hrest ih =>
    rcases aggregateOrder_ok_inv _ _ _ hrel with ⟨c, ps, b, -, -, -, hrec⟩
    subst hrec
    simp [ih]

theorem forall2_items (db : Database) :
    ∀ (rows : List OrderRow) (recs : List Order),
      List.Forall₂ (fun row rec => aggregateOrder db row = .ok rec) rows recs →
      List.Forall₂ (fun row rec =>
        rec.order_items.map OrderItem.quantity =
          (db.order_items.filter (fun d => d.order_uid = row.uid)).map
            OrderItemRow.quantity ∧
        rec.order_items.map OrderItem.uid =
          (db.order_items.filter (fun d => d.order_uid = row.uid)).map
            OrderItemRow.product_uid)
        rows recs := by
  intro rows recs hall
  induction hall with
  | nil => exact List.Forall₂.nil
  | cons hrel hrest ih =>
    refine List.Forall₂.cons ?_ ih
    rcases aggregateOrder_ok_inv _ _ _ hrel with ⟨c, pairs, b, hc, hp, hm, hrec⟩
    subst hrec
    have hfst := resolvePairs_fst db.products _ pairs hp
    have huid := resolvePairs_product_uid db.products _ pairs hp
    dsimp only
    rw [← hfst]
    constructor
    · simp only [List.map_map]
      apply List.map_congr_left
      intro q hq
      simp [mkOrderItem]
    · simp only [List.map_map]
      apply List.map_congr_left
      intro q hq
      simp [mkOrderItem, huid q hq]

/-- C8: a successful run's output list carries the order uids in the
orders query's row order, and each record's items carry the
quantities and product uids of that order's item rows in the item
query's row order. -/
theorem output_preserves_row_order (db : Database) (out : List Order)
    (h : runAggregation db = .ok out) :
    out.map Order.uid = db.orders.map OrderRow.uid ∧
    List.Forall₂ (fun row rec =>
      rec.order_items.map OrderItem.quantity =
        (db.order_items.filter (fun d => d.order_uid = row.uid)).map
          OrderItemRow.quantity ∧
      rec.order_items.map OrderItem.uid =
        (db.order_items.filter (fun d => d.order_uid = row.uid)).map
          OrderItemRow.product_uid)
      db.orders out := by
  rcases runAggregationAux_ok db db.orders [] out h with ⟨produced, hout, hall⟩
  simp only [List.nil_append] at hout
  subst hout
  exact ⟨forall2_map_uid db db.orders out hall,
    forall2_items db db.orders out hall⟩

/-- C8 witness: orders returned in sequence [O3, O1, O2] appear in
the output as [O3, O1, O2], with per-order item rows preserved. -/
theorem output_preserves_row_order_witness :
    [exRec83, exRec81, exRec82].map Order.uid = exDb8.orders.map OrderRow.uid ∧
    List.Forall₂ (fun row rec =>
      rec.order_items.map OrderItem.quantity =
        (exDb8.order_items.filter (fun d => d.order_uid = row.uid)).map
          OrderItemRow.quantity ∧
      rec.order_items.map OrderItem.uid =
        (exDb8.order_items.filter (fun d => d.order_uid = row.uid)).map
          OrderItemRow.product_uid)
      exDb8.orders [exRec83, exRec81, exRec82] ∧
    [exRec83, exRec81, exRec82].map Order.uid = ["O3", "O1", "O2"] := by
  have h := output_preserves_row_order exDb8 [exRec83, exRec81, exRec82] exDb8_eval
  exact ⟨h.1, h.2, by simp [exRec83, exRec81, exRec82]⟩

/-- C9: the weekday-name resolution restores the process-wide locale
setting it found, unconditionally — also when switching to the
requested locale fails or the enclosed strftime raises. -/
theorem weekday_short_name_restores_locale
    (strftimeA : Date → String → Except Unit String) (supported : String → Bool)
    (d : Date) (code : String) (s : String) :
    (weekday_short_name_st strftimeA supported d code s).2 = s := by
  unfold weekday_short_name_st setlocaleCtx setlocaleCall
  by_cases h : supported code = true
  · rw [if_pos h]
    cases h2 : strftimeA d code <;> simp [h2, Except.map]
  · rw [if_neg h]

/-- C10: every produced record's stored subtotal equals the sum of
quantity times stored price over the record's own item list. -/
theorem subtotal_consistent_with_items (db : Database) (order : OrderRow) (rec : Order)
    (h : aggregateOrder db order = .ok rec) :
    rec.subtotal = (rec.order_items.map (fun it => (it.quantity : ℚ) * it.price)).sum := by
  rcases aggregateOrder_ok_inv db order rec h with ⟨c, pairs, b, hc, hp, hm, hrec⟩
  subst hrec
  dsimp only
  rw [pairSum, List.map_map]
  congr 1

/-- C10 witness: record exRec1 stores subtotal 25 = 2 * 10 + 1 * 5 over
its own items. -/
theorem subtotal_consistent_with_items_witness :
    exRec1.subtotal =
      (exRec1.order_items.map (fun it => (it.quantity : ℚ) * it.price)).sum ∧
    exRec1.subtotal = 25 :=
  ⟨subtotal_consistent_with_items exDb1 exO1 exRec1 exDb1_eval, rfl⟩

end Ubiqua
